import Mathlib

/-!
Shallow embedding of the core of the ray-tracing-in-one-weekend renderer
(Rust sources under src/).

Modelling conventions:
* f64 values are modelled by elements of a linear ordered field: the
  rational numbers wherever the code under scrutiny only uses field
  arithmetic and comparisons, and the real numbers where square roots or
  inverse trigonometric functions occur (sphere intersection, colour
  formatting).
* The f64 special values INFINITY, NEG_INFINITY and NAN matter for
  AABB::EMPTY, AABB::new's assertion and BVH construction; there they are
  modelled by the dedicated type Fl of extended rationals with a NaN
  element, whose min / max / comparison operations follow the f64
  semantics used by the Rust code (min and max ignore a NaN argument,
  comparisons involving NaN are false).
* Rust panics (assert!, expect, panic!) are modelled by Option / Except:
  none (or an error value) means the operation panics.
* Division: the Lean convention x / 0 = 0 differs from IEEE division.
  All concrete inputs used in theorems below keep every divisor nonzero,
  so the embedded arithmetic agrees with the source there.
* Arc<dyn Material> values are modelled by an index into a material table
  (mats : Nat -> Material _); pointer identity becomes index equality.
-/

/-- Vec3<T> from src/vec3/mod.rs: a 3-component vector. -/
structure Vec3 (α : Type) where
  x : α
  y : α
  z : α
deriving DecidableEq, Repr

instance [Add α] : Add (Vec3 α) where
  add a b := ⟨a.x + b.x, a.y + b.y, a.z + b.z⟩

instance [Sub α] : Sub (Vec3 α) where
  sub a b := ⟨a.x - b.x, a.y - b.y, a.z - b.z⟩

instance [Mul α] : Mul (Vec3 α) where
  mul a b := ⟨a.x * b.x, a.y * b.y, a.z * b.z⟩

instance [Neg α] : Neg (Vec3 α) where
  neg a := ⟨-a.x, -a.y, -a.z⟩

/-- Scalar multiplication (the scalar * vector operator of vec3/mod.rs). -/
def Vec3.smul [Mul α] (t : α) (v : Vec3 α) : Vec3 α :=
  ⟨t * v.x, t * v.y, t * v.z⟩

/-- Division of a vector by a scalar (the vector / scalar operator). -/
def Vec3.divScalar [Div α] (v : Vec3 α) (t : α) : Vec3 α :=
  ⟨v.x / t, v.y / t, v.z / t⟩

/-- Vec3::constant. -/
def Vec3.constant (t : α) : Vec3 α := ⟨t, t, t⟩

/-- Vec3::dot from src/vec3/mod.rs. -/
def Vec3.dot [Mul α] [Add α] (a b : Vec3 α) : α :=
  a.x * b.x + a.y * b.y + a.z * b.z

/-- The EPSILON constant of the crate::vec3::Float trait: 1e-10 for f64. -/
class FloatEps (α : Type) where
  eps : α

instance : FloatEps ℚ := ⟨1 / 10 ^ 10⟩

noncomputable instance : FloatEps ℝ := ⟨1 / 10 ^ 10⟩

/-- Vec3::is_near_zero: every component has absolute value below EPSILON. -/
def Vec3.isNearZero [LinearOrderedField α] [FloatEps α] (v : Vec3 α) : Bool :=
  |v.x| < FloatEps.eps && |v.y| < FloatEps.eps && |v.z| < FloatEps.eps

/-- Color::BLACK (Color = Vec3<f64>). -/
def Color.black : Vec3 ℚ := ⟨0, 0, 0⟩

/-- Ray from src/ray.rs. Ray::new asserts a nonzero direction; theorems
below quantify over rays satisfying that contract where it matters. -/
structure Ray (α : Type) where
  origin : Vec3 α
  direction : Vec3 α
  time : α
deriving DecidableEq, Repr

/-- Ray::at: origin + t * direction. -/
def Ray.at [Mul α] [Add α] (r : Ray α) (t : α) : Vec3 α :=
  r.origin + Vec3.smul t r.direction

/-- AgainstRayHitRecord from src/hit/hit_record.rs, its material field
replaced by a material-table index. -/
structure AgainstRayHitRecord (α : Type) where
  point : Vec3 α
  normalAgainstRay : Vec3 α
  t : α
  matId : ℕ
  frontFace : Bool
  u : α
  v : α
  emitted : Vec3 α
deriving DecidableEq, Repr

/-- OutwardHitRecord from src/hit/hit_record.rs, its material field
replaced by a material-table index. -/
structure OutwardHitRecord (α : Type) where
  point : Vec3 α
  normalOutward : Vec3 α
  t : α
  matId : ℕ
  frontFace : Bool
  u : α
  v : α
  emitted : Vec3 α
deriving DecidableEq, Repr

/-- The Material trait of src/material/mod.rs: a scatter function and an
emit function (the trait's default emit is constant black, but any
implementation may override it). -/
structure Material (α : Type) where
  scatter : Ray α → AgainstRayHitRecord α → Option (Ray α × Vec3 α)
  emit : Vec3 α → α → α → Vec3 α

/-- OutwardHitRecord::new from src/hit/hit_record.rs: computes the emitted
colour from the material and sets front_face by comparing the incidence
dot product against EPSILON.  The assert on point.is_valid_point()
(finiteness, per the data model) holds for every field element and is
omitted. -/
def OutwardHitRecord.new [LinearOrderedField α] [FloatEps α]
    (mats : ℕ → Material α) (point : Vec3 α) (ray : Ray α)
    (normalOutward : Vec3 α) (t : α) (matId : ℕ) (uv : α × α) :
    OutwardHitRecord α :=
  let emitted := (mats matId).emit point uv.1 uv.2
  let frontFace : Bool := ray.direction.dot normalOutward < FloatEps.eps
  ⟨point, normalOutward, t, matId, frontFace, uv.1, uv.2, emitted⟩

/-- OutwardHitRecord::normal_against_ray. -/
def OutwardHitRecord.normalAgainstRay [Neg α] (r : OutwardHitRecord α) :
    Vec3 α :=
  if r.frontFace then r.normalOutward else -r.normalOutward

/-- OutwardHitRecord::into_against_ray. -/
def OutwardHitRecord.intoAgainstRay [Neg α] (r : OutwardHitRecord α) :
    AgainstRayHitRecord α :=
  ⟨r.point, r.normalAgainstRay, r.t, r.matId, r.frontFace, r.u, r.v,
    r.emitted⟩

/-- AgainstRayHitRecord::normal_outward. -/
def AgainstRayHitRecord.normalOutward [Neg α] (r : AgainstRayHitRecord α) :
    Vec3 α :=
  if r.frontFace then r.normalAgainstRay else -r.normalAgainstRay

/-- ray_color from src/lib.rs.  The scene (a Hit trait object) is a
function from ray and t-range to an optional hit record.  On a near-zero
attenuation the source executes a return of Color::BLACK from the whole
function (the short circuit). -/
def rayColor (mats : ℕ → Material ℚ) (background : Vec3 ℚ)
    (objHit : Ray ℚ → ℚ → ℚ → Option (OutwardHitRecord ℚ))
    (ray : Ray ℚ) (depth : ℤ) (tMin tMax : ℚ) : Vec3 ℚ :=
  if depth ≤ 0 then
    Color.black
  else
    match objHit ray tMin tMax with
    | some hit =>
      let emitted := hit.emitted
      let hitAg := hit.intoAgainstRay
      match (mats hitAg.matId).scatter ray hitAg with
      | some (ray2, attenuation) =>
        if attenuation.isNearZero then
          Color.black
        else
          emitted +
            attenuation *
              rayColor mats background objHit ray2 (depth - 1) tMin tMax
      | none => emitted + Color.black
    | none => background
termination_by depth.toNat
decreasing_by omega

/-- Iterator::min_by over the hit parameter t, as used by World::hit in
src/object/world.rs.  Rust's min_by is reduce with cmp::min_by, which
keeps the accumulator unless the new element is strictly smaller, so of
several equally minimal elements the first one is returned.  The
partial_cmp unwrap (NaN panic) cannot fire over an ordered field. -/
def iterMinByT [LinearOrder α] (l : List (OutwardHitRecord α)) :
    Option (OutwardHitRecord α) :=
  match l with
  | [] => none
  | h :: rest => some (rest.foldl (fun acc r => if r.t < acc.t then r else acc) h)

/-- World::hit from src/object/world.rs: filter_map each element's hit,
then min_by on t.  Elements of the World (Hit trait objects) are modelled
as functions from ray and t-range to an optional hit record. -/
def worldHit [LinearOrder α]
    (objs : List (Ray α → α → α → Option (OutwardHitRecord α)))
    (ray : Ray α) (tMin tMax : α) : Option (OutwardHitRecord α) :=
  iterMinByT (objs.filterMap fun o => o ray tMin tMax)

/-- Specification-side nearest hit: the minimum-t element of the list,
the earliest one winning ties.  Used to state the corrected form of the
World::hit tie-break claim. -/
def specMinFirst [LinearOrder α] (l : List (OutwardHitRecord α)) :
    Option (OutwardHitRecord α) :=
  match l with
  | [] => none
  | h :: rest =>
    match specMinFirst rest with
    | none => some h
    | some m => some (if m.t < h.t then m else h)

/-- The f64 values relevant to AABB and BVH code: NaN, the two infinities
and finite values (modelled by rationals). -/
inductive Fl where
  | nan : Fl
  | ninf : Fl
  | fin : ℚ → Fl
  | pinf : Fl
deriving DecidableEq, Repr

/-- IEEE comparison a <= b on f64: false whenever either operand is NaN. -/
def Fl.le : Fl → Fl → Bool
  | .nan, _ => false
  | _, .nan => false
  | .ninf, _ => true
  | _, .ninf => false
  | _, .pinf => true
  | .pinf, _ => false
  | .fin a, .fin b => a ≤ b

/-- IEEE comparison a < b on f64. -/
def Fl.lt : Fl → Fl → Bool
  | .nan, _ => false
  | _, .nan => false
  | .ninf, .ninf => false
  | .ninf, _ => true
  | _, .ninf => false
  | .pinf, .pinf => false
  | _, .pinf => true
  | .pinf, _ => false
  | .fin a, .fin b => a < b

/-- f64::min: the smaller operand, ignoring a NaN operand. -/
def Fl.min : Fl → Fl → Fl
  | .nan, b => b
  | a, .nan => a
  | .ninf, _ => .ninf
  | _, .ninf => .ninf
  | .fin a, .fin b => .fin (Min.min a b)
  | .pinf, b => b
  | a, .pinf => a

/-- f64::max: the larger operand, ignoring a NaN operand. -/
def Fl.max : Fl → Fl → Fl
  | .nan, b => b
  | a, .nan => a
  | .pinf, _ => .pinf
  | _, .pinf => .pinf
  | .fin a, .fin b => .fin (Max.max a b)
  | .ninf, b => b
  | a, .ninf => a

/-- Vec3::min from src/vec3/mod.rs (componentwise f64::min). -/
def Vec3.minF (a b : Vec3 Fl) : Vec3 Fl :=
  ⟨a.x.min b.x, a.y.min b.y, a.z.min b.z⟩

/-- Vec3::max from src/vec3/mod.rs (componentwise f64::max). -/
def Vec3.maxF (a b : Vec3 Fl) : Vec3 Fl :=
  ⟨a.x.max b.x, a.y.max b.y, a.z.max b.z⟩

/-- AABB from src/hit/aabb.rs: min and max corner points. -/
structure AABB where
  min : Vec3 Fl
  max : Vec3 Fl
deriving DecidableEq, Repr

/-- AABB::new: asserts min <= max componentwise; none models the panic. -/
def AABB.new (mn mx : Vec3 Fl) : Option AABB :=
  if mn.x.le mx.x && mn.y.le mx.y && mn.z.le mx.z then some ⟨mn, mx⟩
  else none

/-- AABB::EMPTY: min corner at +INFINITY, max corner at -INFINITY. -/
def AABB.EMPTY : AABB :=
  ⟨⟨.pinf, .pinf, .pinf⟩, ⟨.ninf, .ninf, .ninf⟩⟩

/-- AABB::merge: componentwise min of mins and max of maxes, built through
AABB::new (so the assertion can fire). -/
def AABB.merge (a b : AABB) : Option AABB :=
  AABB.new (a.min.minF b.min) (a.max.maxF b.max)

/-- The data-model invariant of an AABB: min <= max componentwise (true of
every box built by AABB::new; the EMPTY sentinel violates it). -/
def AABB.isValid (a : AABB) : Bool :=
  a.min.x.le a.max.x && a.min.y.le a.max.y && a.min.z.le a.max.z

/-- f64::EPSILON, the padding used by the rectangle bounding boxes. -/
def f64MachineEps : ℚ := 1 / 2 ^ 52

/-- XYRectangle from the axis_aligned_rectangle macro in
src/object/rectangle.rs: in-plane bounds x0 < x1, y0 < y1 and the plane
offset (the field named z in the source) on the z axis. -/
structure XYRectangle where
  x0 : ℚ
  x1 : ℚ
  y0 : ℚ
  y1 : ℚ
  k : ℚ
  matId : ℕ
deriving DecidableEq, Repr

/-- XZRectangle: bounds x0 < x1, z0 < z1, plane offset on the y axis. -/
structure XZRectangle where
  x0 : ℚ
  x1 : ℚ
  z0 : ℚ
  z1 : ℚ
  k : ℚ
  matId : ℕ
deriving DecidableEq, Repr

/-- YZRectangle: bounds y0 < y1, z0 < z1, plane offset on the x axis. -/
structure YZRectangle where
  y0 : ℚ
  y1 : ℚ
  z0 : ℚ
  z1 : ℚ
  k : ℚ
  matId : ℕ
deriving DecidableEq, Repr

/-- XYRectangle::new: asserts x0 < x1 and y0 < y1 (none models the
panic). -/
def XYRectangle.new (p0 p1 : ℚ × ℚ) (k : ℚ) (matId : ℕ) :
    Option XYRectangle :=
  if p0.1 < p1.1 ∧ p0.2 < p1.2 then some ⟨p0.1, p1.1, p0.2, p1.2, k, matId⟩
  else none

/-- XZRectangle::new. -/
def XZRectangle.new (p0 p1 : ℚ × ℚ) (k : ℚ) (matId : ℕ) :
    Option XZRectangle :=
  if p0.1 < p1.1 ∧ p0.2 < p1.2 then some ⟨p0.1, p1.1, p0.2, p1.2, k, matId⟩
  else none

/-- YZRectangle::new. -/
def YZRectangle.new (p0 p1 : ℚ × ℚ) (k : ℚ) (matId : ℕ) :
    Option YZRectangle :=
  if p0.1 < p1.1 ∧ p0.2 < p1.2 then some ⟨p0.1, p1.1, p0.2, p1.2, k, matId⟩
  else none

/-- XYRectangle::hit from the axis_aligned_rectangle macro. -/
def XYRectangle.hit (mats : ℕ → Material ℚ) (r : XYRectangle) (ray : Ray ℚ)
    (tMin tMax : ℚ) : Option (AgainstRayHitRecord ℚ) :=
  let t := (r.k - ray.origin.z) / ray.direction.z
  if t < tMin ∨ t > tMax then none
  else
    let point := ray.at t
    let px := point.x
    let py := point.y
    if px < r.x0 ∨ px > r.x1 then none
    else if py < r.y0 ∨ py > r.y1 then none
    else
      let u := (px - r.x0) / (r.x1 - r.x0)
      let v := (py - r.y0) / (r.y1 - r.y0)
      let normalOutward : Vec3 ℚ := ⟨0, 0, 1⟩
      some ((OutwardHitRecord.new mats point ray normalOutward t r.matId
        (u, v)).intoAgainstRay)

/-- XZRectangle::hit: the plane axis is y, the in-plane axes are x, z. -/
def XZRectangle.hit (mats : ℕ → Material ℚ) (r : XZRectangle) (ray : Ray ℚ)
    (tMin tMax : ℚ) : Option (AgainstRayHitRecord ℚ) :=
  let t := (r.k - ray.origin.y) / ray.direction.y
  if t < tMin ∨ t > tMax then none
  else
    let point := ray.at t
    let px := point.x
    let pz := point.z
    if px < r.x0 ∨ px > r.x1 then none
    else if pz < r.z0 ∨ pz > r.z1 then none
    else
      let u := (px - r.x0) / (r.x1 - r.x0)
      let v := (pz - r.z0) / (r.z1 - r.z0)
      let normalOutward : Vec3 ℚ := ⟨0, 1, 0⟩
      some ((OutwardHitRecord.new mats point ray normalOutward t r.matId
        (u, v)).intoAgainstRay)

/-- YZRectangle::hit: the plane axis is x, the in-plane axes are y, z. -/
def YZRectangle.hit (mats : ℕ → Material ℚ) (r : YZRectangle) (ray : Ray ℚ)
    (tMin tMax : ℚ) : Option (AgainstRayHitRecord ℚ) :=
  let t := (r.k - ray.origin.x) / ray.direction.x
  if t < tMin ∨ t > tMax then none
  else
    let point := ray.at t
    let py := point.y
    let pz := point.z
    if py < r.y0 ∨ py > r.y1 then none
    else if pz < r.z0 ∨ pz > r.z1 then none
    else
      let u := (py - r.y0) / (r.y1 - r.y0)
      let v := (pz - r.z0) / (r.z1 - r.z0)
      let normalOutward : Vec3 ℚ := ⟨1, 0, 0⟩
      some ((OutwardHitRecord.new mats point ray normalOutward t r.matId
        (u, v)).intoAgainstRay)

/-- XYRectangle::bounding_box, exactly as emitted by the macro: the two
corners handed to AABB::new are Vec3::new(x0, x1, k - padding) and
Vec3::new(y0, y1, k + padding). -/
def XYRectangle.boundingBox (r : XYRectangle) : Option AABB :=
  AABB.new ⟨.fin r.x0, .fin r.x1, .fin (r.k - f64MachineEps)⟩
    ⟨.fin r.y0, .fin r.y1, .fin (r.k + f64MachineEps)⟩

/-- XZRectangle::bounding_box, same positional corner layout as emitted by
the macro (x0, x1, k - padding) and (z0, z1, k + padding). -/
def XZRectangle.boundingBox (r : XZRectangle) : Option AABB :=
  AABB.new ⟨.fin r.x0, .fin r.x1, .fin (r.k - f64MachineEps)⟩
    ⟨.fin r.z0, .fin r.z1, .fin (r.k + f64MachineEps)⟩

/-- YZRectangle::bounding_box, corner layout (y0, y1, k - padding) and
(z0, z1, k + padding). -/
def YZRectangle.boundingBox (r : YZRectangle) : Option AABB :=
  AABB.new ⟨.fin r.y0, .fin r.y1, .fin (r.k - f64MachineEps)⟩
    ⟨.fin r.z0, .fin r.z1, .fin (r.k + f64MachineEps)⟩

/-- The AxisAlignedRectangle enum generated in src/object/rectangle.rs. -/
inductive AxisAlignedRectangle where
  | xy : XYRectangle → AxisAlignedRectangle
  | xz : XZRectangle → AxisAlignedRectangle
  | yz : YZRectangle → AxisAlignedRectangle
deriving DecidableEq, Repr

/-- Hit::hit for AxisAlignedRectangle (dispatch on the variant). -/
def AxisAlignedRectangle.hit (mats : ℕ → Material ℚ)
    (r : AxisAlignedRectangle) (ray : Ray ℚ) (tMin tMax : ℚ) :
    Option (AgainstRayHitRecord ℚ) :=
  match r with
  | .xy rect => rect.hit mats ray tMin tMax
  | .xz rect => rect.hit mats ray tMin tMax
  | .yz rect => rect.hit mats ray tMin tMax

/-- Block from src/object/block.rs. -/
structure Block where
  rectangles : List AxisAlignedRectangle
  minPoint : Vec3 ℚ
  maxPoint : Vec3 ℚ
deriving DecidableEq, Repr

/-- Block::new from src/object/block.rs: asserts positive volume, then
builds the six faces through the rectangles macro.  The plane offsets are
exactly the ones the macro produces; in particular the sixth rectangle (a
YZ face, fixed axis x) is placed at offset max.y. -/
def Block.new (minP maxP : Vec3 ℚ) (matId : ℕ) : Option Block :=
  if minP.x < maxP.x ∧ minP.y < maxP.y ∧ minP.z < maxP.z then
    do
      let r1 ← XYRectangle.new (minP.x, minP.y) (maxP.x, maxP.y) minP.z matId
      let r2 ← XYRectangle.new (minP.x, minP.y) (maxP.x, maxP.y) maxP.z matId
      let r3 ← XZRectangle.new (minP.x, minP.z) (maxP.x, maxP.z) minP.y matId
      let r4 ← XZRectangle.new (minP.x, minP.z) (maxP.x, maxP.z) maxP.y matId
      let r5 ← YZRectangle.new (minP.y, minP.z) (maxP.y, maxP.z) minP.x matId
      let r6 ← YZRectangle.new (minP.y, minP.z) (maxP.y, maxP.z) maxP.y matId
      some ⟨[.xy r1, .xy r2, .xz r3, .xz r4, .yz r5, .yz r6], minP, maxP⟩
  else none

/-- Modelled from the spec: the Hit implementation for the rectangle array
used by Block::hit (self.rectangles.hit) is not under src; section 4.1 of
the spec describes aggregate hits as the minimum-t result among the
elements, tested by iterating the collection and narrowing t_max to the
best hit found so far. -/
def hitListNearest (mats : ℕ → Material ℚ)
    (rects : List AxisAlignedRectangle) (ray : Ray ℚ) (tMin tMax : ℚ) :
    Option (AgainstRayHitRecord ℚ) :=
  rects.foldl
    (fun acc rect =>
      let bound := match acc with | some a => a.t | none => tMax
      match rect.hit mats ray tMin bound with
      | some h => some h
      | none => acc)
    none

/-- Hit::hit for Block: delegate to the rectangle array. -/
def Block.hit (mats : ℕ → Material ℚ) (b : Block) (ray : Ray ℚ)
    (tMin tMax : ℚ) : Option (AgainstRayHitRecord ℚ) :=
  hitListNearest mats b.rectangles ray tMin tMax

/-- Hit::bounding_box for Block: AABB::new(min_point, max_point). -/
def Block.boundingBox (b : Block) : Option AABB :=
  AABB.new ⟨.fin b.minPoint.x, .fin b.minPoint.y, .fin b.minPoint.z⟩
    ⟨.fin b.maxPoint.x, .fin b.maxPoint.y, .fin b.maxPoint.z⟩

/-- An object handed to the BVH builder (a Box<dyn Hit>), reduced to what
BVH::new consumes: an identity and the result of its bounding_box call.
The builder always queries bounding_box with the same time pair, so the
box is recorded as a constant. -/
structure BObj where
  id : ℕ
  box : Option AABB
deriving DecidableEq, Repr

/-- The distinct panics of BVH::new in src/hit/bvh.rs: the empty-input
panic, the missing-bounding-box expect (in the constructor and in the
sort comparator), the NaN partial_cmp expect, and the min <= max assert
inside AABB::new reached through AABB::merge. -/
inductive BuildErr where
  | emptyObjects : BuildErr
  | noBox : BuildErr
  | nanCompare : BuildErr
  | mergeAssert : BuildErr
deriving DecidableEq, Repr

/-- The BVH node shape of src/hit/bvh.rs: a bounding box and optional
children, each child either an original object or a further node. -/
inductive BVHF where
  | objLeaf : BObj → BVHF
  | node : AABB → Option BVHF → Option BVHF → BVHF

/-- Hit::bounding_box of a BVH child: the stored box for a node, the
object's own box for an original object. -/
def BVHF.boxOf : BVHF → Option AABB
  | .objLeaf o => o.box
  | .node bb _ _ => some bb

/-- The sort key of sort_objects_by_axis: the bounding-box minimum
coordinate on the chosen axis.  The none branch is unreachable because
the builder model checks box presence before sorting. -/
def sortKeyF (axis : Fin 3) (o : BObj) : Fl :=
  match o.box with
  | some b => if axis.val = 0 then b.min.x else if axis.val = 1 then b.min.y else b.min.z
  | none => .nan

/-- BVH::new from src/hit/bvh.rs.  The thread_rng axis draws are supplied
as a stream axes, consumed left to right (k is the index of the next
draw); the random choice is otherwise unconstrained, and every theorem
below quantifies over the stream.  sort_unstable_by is modelled by
insertion sort: it evaluates every element's bounding box and compares
keys pairwise, so the panic behaviour (missing box, NaN key) matches; the
order of equal keys is unspecified in the source.  The presence and NaN
checks are hoisted before the sort, which preserves which panic fires
because a sort of two or more elements compares every element at least
once. -/
def bvhBuildF (objs : List BObj) (axes : ℕ → Fin 3) (k : ℕ) :
    Except BuildErr (BVHF × ℕ) :=
  match objs with
  | [] => .error .emptyObjects
  | [o] =>
    match o.box with
    | none => .error .noBox
    | some b => .ok (.node b (some (.objLeaf o)) none, k)
  | [o1, o2] =>
    let l := [o1, o2]
    let axis := axes k
    if l.any (fun o => o.box.isNone) then .error .noBox
    else if l.any (fun o => sortKeyF axis o == Fl.nan) then .error .nanCompare
    else
      let sorted :=
        l.insertionSort fun a b => (sortKeyF axis a).le (sortKeyF axis b) = true
      match sorted with
      | [a, b2] =>
        match a.box, b2.box with
        | some ba, some bb =>
          match ba.merge bb with
          | some bm =>
            .ok (.node bm (some (.objLeaf a)) (some (.objLeaf b2)), k + 1)
          | none => .error .mergeAssert
        | _, _ => .error .noBox
      | _ => .error .noBox
  | o1 :: o2 :: o3 :: rest3 =>
    let l := o1 :: o2 :: o3 :: rest3
    let axis := axes k
    if l.any (fun o => o.box.isNone) then .error .noBox
    else if l.any (fun o => sortKeyF axis o == Fl.nan) then .error .nanCompare
    else
      let sorted :=
        l.insertionSort fun a b => (sortKeyF axis a).le (sortKeyF axis b) = true
      let lft := sorted.take (l.length / 2)
      let rgt := sorted.drop (l.length / 2)
      match bvhBuildF lft axes (k + 1) with
      | .error e => .error e
      | .ok (lt, k1) =>
        match bvhBuildF rgt axes k1 with
        | .error e => .error e
        | .ok (rt, k2) =>
          match lt.boxOf, rt.boxOf with
          | some bl, some br =>
            match bl.merge br with
            | some bm => .ok (.node bm (some lt) (some rt), k2)
            | none => .error .mergeAssert
          | _, _ => .error .noBox
termination_by objs.length
decreasing_by
  all_goals
    simp only [List.length_take, List.length_drop, List.length_insertionSort,
      List.length_cons]
    omega

/-!
Real-valued layer: sphere intersection involves a square root and the
surface parameterization involves inverse trigonometry, so the sphere /
slab-test / BVH-traversal code (claim C4 of the development) is embedded
over the real numbers.
-/

noncomputable section

/-- AABB over the reals (used with sphere scenes, where no infinities or
NaNs arise). -/
structure AABBR where
  min : Vec3 ℝ
  max : Vec3 ℝ

/-- AABB::new over the reals: asserts min <= max componentwise. -/
def AABBR.new (mn mx : Vec3 ℝ) : Option AABBR :=
  if mn.x ≤ mx.x ∧ mn.y ≤ mx.y ∧ mn.z ≤ mx.z then some ⟨mn, mx⟩ else none

/-- AABB::merge over the reals. -/
def AABBR.merge (a b : AABBR) : Option AABBR :=
  AABBR.new ⟨Min.min a.min.x b.min.x, Min.min a.min.y b.min.y,
      Min.min a.min.z b.min.z⟩
    ⟨Max.max a.max.x b.max.x, Max.max a.max.y b.max.y,
      Max.max a.max.z b.max.z⟩

/-- One iteration of the slab loop of AABB::is_hit (src/hit/aabb.rs):
intersect the ray with the two planes of one axis, swap if the direction
is negative, and clip the running t interval. -/
def slabR (o d mn mx tmn tmx : ℝ) : ℝ × ℝ :=
  let t0 := (mn - o) / d
  let t1 := (mx - o) / d
  let p := if d < 0 then (t1, t0) else (t0, t1)
  (Max.max p.1 tmn, Min.min p.2 tmx)

/-- AABB::is_hit: the three slab iterations in axis order, each followed
by the early-exit check t_max <= t_min. -/
def AABBR.isHit (b : AABBR) (ray : Ray ℝ) (tMin tMax : ℝ) : Bool :=
  let s1 := slabR ray.origin.x ray.direction.x b.min.x b.max.x tMin tMax
  if s1.2 ≤ s1.1 then false
  else
    let s2 := slabR ray.origin.y ray.direction.y b.min.y b.max.y s1.1 s1.2
    if s2.2 ≤ s2.1 then false
    else
      let s3 := slabR ray.origin.z ray.direction.z b.min.z b.max.z s2.1 s2.2
      if s3.2 ≤ s3.1 then false else true

/-- Sphere from src/object/sphere.rs, the material as a table index. -/
structure Sphere where
  center : Vec3 ℝ
  radius : ℝ
  matId : ℕ

/-- Hit::bounding_box for Sphere: AABB::new(center - r, center + r). -/
def Sphere.boundingBox (s : Sphere) : Option AABBR :=
  AABBR.new (s.center - Vec3.constant s.radius)
    (s.center + Vec3.constant s.radius)

/-- f64::atan2 for non-NaN arguments (signed zeros are not modelled; the
x = 0 branches follow the positive-zero behaviour). -/
def atan2R (y x : ℝ) : ℝ :=
  if 0 < x then Real.arctan (y / x)
  else if x < 0 then
    if 0 ≤ y then Real.arctan (y / x) + Real.pi
    else Real.arctan (y / x) - Real.pi
  else
    if 0 < y then Real.pi / 2
    else if y < 0 then -(Real.pi / 2)
    else 0

/-- Vec3::to_spherical from src/vec3/mod.rs: (r, theta, phi). -/
def toSphericalR (v : Vec3 ℝ) : Vec3 ℝ :=
  let r := Real.sqrt (v.dot v)
  let nx := v.x / r
  let ny := v.y / r
  let nz := v.z / r
  ⟨r, Real.arccos (-ny), atan2R (-nz) nx + Real.pi⟩

/-- to_sphere_uv from src/object/sphere.rs. -/
def toSphereUV (n : Vec3 ℝ) : ℝ × ℝ :=
  let s := toSphericalR n
  (s.z / (2 * Real.pi) / s.x, s.y / Real.pi / s.x)

/-- The free hit function of src/object/sphere.rs: half-b quadratic,
first root inside the closed interval [t_min, t_max] wins. -/
def sphereHit (mats : ℕ → Material ℝ) (s : Sphere) (ray : Ray ℝ)
    (tMin tMax : ℝ) : Option (OutwardHitRecord ℝ) :=
  let oc := ray.origin - s.center
  let d := ray.direction
  let a := d.dot d
  let hh := oc.dot d
  let c := oc.dot oc - s.radius * s.radius
  let disc := hh * hh - a * c
  if disc < 0 then none
  else
    let ds := Real.sqrt disc
    let root1 := (-hh - ds) / a
    let root2 := (-hh + ds) / a
    let tFound : Option ℝ :=
      if tMin ≤ root1 ∧ root1 ≤ tMax then some root1
      else if tMin ≤ root2 ∧ root2 ≤ tMax then some root2
      else none
    match tFound with
    | none => none
    | some t =>
      let point := ray.at t
      let normalOutward := (point - s.center).divScalar s.radius
      let uv := toSphereUV normalOutward
      some (OutwardHitRecord.new mats point ray normalOutward t s.matId uv)

/-- The BVH node shape of src/hit/bvh.rs over a sphere scene: children
are either original objects (spheres) or further nodes.  In the source
the children are Option<Box<dyn Hit>>, but the constructor only ever
produces a node with a left child alone (the one-object leaf, right =
None) or with both children; the two node constructors encode exactly
those reachable shapes. -/
inductive BTreeR where
  | objLeaf : Sphere → BTreeR
  | node1 : AABBR → BTreeR → BTreeR
  | node2 : AABBR → BTreeR → BTreeR → BTreeR

/-- Hit::bounding_box of a BVH child. -/
def BTreeR.boxOf : BTreeR → Option AABBR
  | .objLeaf s => s.boundingBox
  | .node1 bb _ => some bb
  | .node2 bb _ _ => some bb

/-- The original objects at the leaves of a BVH tree. -/
def BTreeR.leaves : BTreeR → List Sphere
  | .objLeaf s => [s]
  | .node1 _ l => l.leaves
  | .node2 _ l r => l.leaves ++ r.leaves

/-- Hit::hit for BVH from src/hit/bvh.rs: prune by the node box, test the
left child, narrow t_max by the left hit's t, test the right child (when
present), and prefer the right result.  For a right-less node the right
test is None and right.or(left) is the left result. -/
def treeHit (mats : ℕ → Material ℝ) : BTreeR → Ray ℝ → ℝ → ℝ →
    Option (OutwardHitRecord ℝ)
  | .objLeaf s, ray, tMin, tMax => sphereHit mats s ray tMin tMax
  | .node1 bb l, ray, tMin, tMax =>
    if bb.isHit ray tMin tMax then treeHit mats l ray tMin tMax
    else none
  | .node2 bb l r, ray, tMin, tMax =>
    if bb.isHit ray tMin tMax then
      let lhit := treeHit mats l ray tMin tMax
      let tMax2 := match lhit with
        | some lh => Min.min tMax lh.t
        | none => tMax
      let rhit := treeHit mats r ray tMin tMax2
      match rhit with
      | some h => some h
      | none => lhit
    else none

/-- The sort key of sort_objects_by_axis over a sphere scene.  The none
branch is unreachable (box presence is checked first). -/
def keyR (axis : Fin 3) (s : Sphere) : ℝ :=
  match s.boundingBox with
  | some b =>
    if axis.val = 0 then b.min.x else if axis.val = 1 then b.min.y else b.min.z
  | none => 0

/-- BVH::new from src/hit/bvh.rs over a sphere scene; none models any of
its panics.  The axis draws are supplied as a stream as in bvhBuildF; the
NaN panic cannot fire over the reals.  For two objects the unstable sort
swaps the pair exactly when the second key is strictly below the first
(the order of equal keys is unspecified in the source). -/
def bvhBuildR (objs : List Sphere) (axes : ℕ → Fin 3) (k : ℕ) :
    Option (BTreeR × ℕ) :=
  match objs with
  | [] => none
  | [o] =>
    match o.boundingBox with
    | none => none
    | some b => some (.node1 b (.objLeaf o), k)
  | [a, b2] =>
    let axis := axes k
    match a.boundingBox, b2.boundingBox with
    | some _, some _ =>
      let pair := if keyR axis b2 < keyR axis a then (b2, a) else (a, b2)
      match pair.1.boundingBox, pair.2.boundingBox with
      | some bl, some br =>
        match bl.merge br with
        | some bm =>
          some (.node2 bm (.objLeaf pair.1) (.objLeaf pair.2), k + 1)
        | none => none
      | _, _ => none
    | _, _ => none
  | o1 :: o2 :: o3 :: rest3 =>
    let l := o1 :: o2 :: o3 :: rest3
    let axis := axes k
    if l.any (fun o => o.boundingBox.isNone) then none
    else
      let sorted := l.insertionSort fun s1 s2 => keyR axis s1 ≤ keyR axis s2
      let lft := sorted.take (l.length / 2)
      let rgt := sorted.drop (l.length / 2)
      match bvhBuildR lft axes (k + 1) with
      | none => none
      | some (lt, k1) =>
        match bvhBuildR rgt axes k1 with
        | none => none
        | some (rt, k2) =>
          match lt.boxOf, rt.boxOf with
          | some bl, some br =>
            match bl.merge br with
            | some bm => some (.node2 bm lt rt, k2)
            | none => none
          | _, _ => none
termination_by objs.length
decreasing_by
  all_goals
    simp only [List.length_take, List.length_drop, List.length_insertionSort,
      List.length_cons]
    omega

/-- World::hit over a sphere scene (src/object/world.rs with sphere
elements). -/
def worldHitR (mats : ℕ → Material ℝ) (objs : List Sphere) (ray : Ray ℝ)
    (tMin tMax : ℝ) : Option (OutwardHitRecord ℝ) :=
  iterMinByT (objs.filterMap fun s => sphereHit mats s ray tMin tMax)

/-!
Colour formatting (src/vec3/color.rs).  A colour component is an f64 that
may be any real number, an infinity, or NaN (a negative component becomes
NaN under sqrt); the type F8 models exactly that.
-/

/-- An f64 colour component: NaN, an infinity, or a finite real. -/
inductive F8 where
  | nan : F8
  | ninf : F8
  | pinf : F8
  | fin : ℝ → F8

/-- f64::sqrt: NaN for negative arguments (and NaN), componentwise lifted
by Vec3::sqrt. -/
def F8.sqrt : F8 → F8
  | .nan => .nan
  | .ninf => .nan
  | .pinf => .pinf
  | .fin x => if x < 0 then .nan else .fin (Real.sqrt x)

/-- num::clamp as used by Vec3::clamp: if x < lo then lo else if x > hi
then hi else x; a NaN input falls through both comparisons and is
returned unchanged. -/
def F8.clamp (c : F8) (lo hi : ℝ) : F8 :=
  match c with
  | .nan => .nan
  | .ninf => .fin lo
  | .pinf => .fin hi
  | .fin x => if x < lo then .fin lo else if hi < x then .fin hi else .fin x

/-- Multiplication by the scalar COLOR_MAX = 255.0. -/
def F8.scale255 : F8 → F8
  | .nan => .nan
  | .ninf => .ninf
  | .pinf => .pinf
  | .fin x => .fin (255 * x)

/-- f64::round: to the nearest integer, ties away from zero. -/
def F8.round : F8 → F8
  | .fin x =>
    if 0 ≤ x then .fin ((⌊x + 1 / 2⌋ : ℤ) : ℝ)
    else .fin ((⌈x - 1 / 2⌉ : ℤ) : ℝ)
  | c => c

/-- The Rust float-to-integer conversion x as u64: a saturating cast that
truncates toward zero, sends NaN and negative values to 0 and values
beyond u64::MAX to u64::MAX. -/
def F8.toU64 : F8 → ℕ
  | .nan => 0
  | .ninf => 0
  | .pinf => 2 ^ 64 - 1
  | .fin x =>
    if x < 0 then 0
    else if (2 ^ 64 - 1 : ℝ) < x then 2 ^ 64 - 1
    else (⌊x⌋).toNat

/-- The per-component pipeline of Color::format_color: sqrt, then clamp
to [0, 0.999], then scale by 255, round, and cast to an integer. -/
def formatComponent (c : F8) : ℕ :=
  ((((c.sqrt).clamp 0 (999 / 1000)).scale255).round).toU64

/-- The three integers Color::format_color prints. -/
def formatTriple (c : Vec3 F8) : ℕ × ℕ × ℕ :=
  (formatComponent c.x, formatComponent c.y, formatComponent c.z)

/-- Color::format_color: the string R G B. -/
def formatColor (c : Vec3 F8) : String :=
  toString (formatTriple c).1 ++ " " ++ toString (formatTriple c).2.1 ++
    " " ++ toString (formatTriple c).2.2

end

/-!
Concrete instances used in the theorems below.
-/

/-- A material that never scatters and emits black (the behaviour of the
Material trait defaults). -/
def matInert : Material ℚ :=
  ⟨fun _ _ => none, fun _ _ _ => Color.black⟩

/-- A material table assigning the inert material everywhere. -/
def matsInert : ℕ → Material ℚ := fun _ => matInert

/-- A material whose scatter returns a fixed ray and the attenuation
(0,0,0), which is near-zero; its emit is black (the emitted colour seen
by ray_color is the one precomputed in the hit record). -/
def matZeroAttenuation : Material ℚ :=
  ⟨fun _ _ => some (⟨⟨0, 0, 0⟩, ⟨1, 0, 0⟩, 0⟩, ⟨0, 0, 0⟩),
    fun _ _ _ => Color.black⟩

/-- Material table for the ray_color short-circuit counterexample. -/
def matsC1 : ℕ → Material ℚ := fun _ => matZeroAttenuation

/-- A hit record whose material scatters with near-zero attenuation and
whose emitted colour is (1,1,1). -/
def cexOutRec : OutwardHitRecord ℚ :=
  ⟨⟨0, 0, 1⟩, ⟨0, 0, 1⟩, 1, 0, true, 0, 0, ⟨1, 1, 1⟩⟩

/-- A scene (Hit trait object) that always reports cexOutRec. -/
def cexScene : Ray ℚ → ℚ → ℚ → Option (OutwardHitRecord ℚ) :=
  fun _ _ _ => some cexOutRec

/-- A concrete ray. -/
def cexRay : Ray ℚ := ⟨⟨0, 0, 0⟩, ⟨0, 0, 1⟩, 0⟩

/-- Two hit records with exactly equal t but different surface
coordinates, used for the World::hit tie-break counterexample. -/
def recTieA : OutwardHitRecord ℚ :=
  ⟨⟨0, 0, 1⟩, ⟨0, 0, 1⟩, 1, 0, true, 1, 0, ⟨0, 0, 0⟩⟩

/-- The second tied record (same t, different u and material index). -/
def recTieB : OutwardHitRecord ℚ :=
  ⟨⟨0, 0, 1⟩, ⟨0, 0, 1⟩, 1, 1, true, 2, 0, ⟨0, 0, 0⟩⟩

/-- The constant axis stream choosing the x axis for every draw. -/
def axesX : ℕ → Fin 3 := fun _ => 0

/-- A valid unit box over Fl. -/
def unitBoxF : AABB :=
  ⟨⟨.fin 0, .fin 0, .fin 0⟩, ⟨.fin 1, .fin 1, .fin 1⟩⟩

/-- A second valid box over Fl. -/
def boxF2 : AABB :=
  ⟨⟨.fin (-2), .fin 1, .fin (-1)⟩, ⟨.fin 3, .fin 4, .fin 5⟩⟩

/-- A third valid box over Fl. -/
def boxF3 : AABB :=
  ⟨⟨.fin (-5), .fin 2, .fin 0⟩, ⟨.fin 0, .fin 9, .fin 2⟩⟩

/-- A BVH-builder object with the unit box. -/
def bobjUnit : BObj := ⟨0, some unitBoxF⟩

/-- A second BVH-builder object. -/
def bobjSecond : BObj := ⟨1, some boxF2⟩

/-- A BVH-builder object without a bounding box. -/
def bobjNoBox : BObj := ⟨2, none⟩

/-- A BVH-builder object whose box has a NaN minimum x coordinate. -/
def bobjNanX : BObj :=
  ⟨3, some ⟨⟨.nan, .fin 0, .fin 0⟩, ⟨.fin 1, .fin 1, .fin 1⟩⟩⟩

noncomputable section

/-- A material table over the reals: never scatters, emits black. -/
def matsInertR : ℕ → Material ℝ :=
  fun _ => ⟨fun _ _ => none, fun _ _ _ => ⟨0, 0, 0⟩⟩

/-- The unit sphere at the origin with material index 7. -/
def sph0 : Sphere := ⟨⟨0, 0, 0⟩, 1, 7⟩

/-- A ray that hits sph0 exactly at t = 1, at the point (0,0,1) where the
ray also enters the sphere's bounding box. -/
def rayGraze : Ray ℝ := ⟨⟨-(3 / 10), -(2 / 5), 2⟩, ⟨3 / 10, 2 / 5, -1⟩, 0⟩

/-- The bounding box of sph0. -/
def boxSph0 : AABBR := ⟨⟨-1, -1, -1⟩, ⟨1, 1, 1⟩⟩

/-- The single-object BVH tree that BVH::new builds over [sph0]. -/
def treeSph0 : BTreeR := .node1 boxSph0 (.objLeaf sph0)

/-- The hit record sphereHit produces for rayGraze on sph0 (t = 1, point
and outward normal (0,0,1), surface coordinates (1/4, 1/2)). -/
def recGraze : OutwardHitRecord ℝ :=
  ⟨⟨0, 0, 1⟩, ⟨0, 0, 1⟩, 1, 7, true, 1 / 4, 1 / 2, ⟨0, 0, 0⟩⟩

end

/-- Block hit record produced by the misplaced sixth face (the YZ face at
plane offset max.y = 2) for the failing ray of the Block face-placement
claim. -/
def cexBlockRec : AgainstRayHitRecord ℚ :=
  ⟨⟨2, 4 / 5, 4 / 5⟩, ⟨1, 0, 0⟩, 3, 0, true, 2 / 5, 4 / 15, ⟨0, 0, 0⟩⟩

/-- The ray used against the block: all direction components nonzero. -/
def cexBlockRay : Ray ℚ := ⟨⟨5, 1 / 2, 1 / 2⟩, ⟨-1, 1 / 10, 1 / 10⟩, 0⟩

/-!
Helper lemmas.
-/

lemma Vec3.neg_def [Neg α] (v : Vec3 α) : -v = ⟨-v.x, -v.y, -v.z⟩ := rfl

lemma Vec3.add_def [Add α] (a b : Vec3 α) :
    a + b = ⟨a.x + b.x, a.y + b.y, a.z + b.z⟩ := rfl

lemma Vec3.sub_def [Sub α] (a b : Vec3 α) :
    a - b = ⟨a.x - b.x, a.y - b.y, a.z - b.z⟩ := rfl

lemma Vec3.mul_def [Mul α] (a b : Vec3 α) :
    a * b = ⟨a.x * b.x, a.y * b.y, a.z * b.z⟩ := rfl

lemma Vec3.neg_neg [SubtractionMonoid α] (v : Vec3 α) : -(-v) = v := by
  cases v
  simp [Vec3.neg_def]

lemma decide_lt_eq_true_iff {a b : ℚ} : (decide (a < b)) = true ↔ a < b := by
  simp

/-- C10: into_against_ray preserves the point, t, material, u, v, emitted
and front_face fields unchanged; the resulting against-ray normal equals
the outward normal when front_face holds and its negation otherwise; and
normal_outward() on the result recovers the original outward normal. -/
theorem thm_C10_intoAgainstRay_roundTrip (rec : OutwardHitRecord ℚ) :
    (rec.intoAgainstRay.point = rec.point ∧
      rec.intoAgainstRay.t = rec.t ∧
      rec.intoAgainstRay.matId = rec.matId ∧
      rec.intoAgainstRay.u = rec.u ∧
      rec.intoAgainstRay.v = rec.v ∧
      rec.intoAgainstRay.emitted = rec.emitted ∧
      rec.intoAgainstRay.frontFace = rec.frontFace) ∧
    rec.intoAgainstRay.normalAgainstRay =
      (if rec.frontFace then rec.normalOutward else -rec.normalOutward) ∧
    rec.intoAgainstRay.normalOutward = rec.normalOutward := by
  refine ⟨⟨rfl, rfl, rfl, rfl, rfl, rfl, rfl⟩, rfl, ?_⟩
  by_cases h : rec.frontFace <;>
    simp [OutwardHitRecord.intoAgainstRay, AgainstRayHitRecord.normalOutward,
      OutwardHitRecord.normalAgainstRay, h, Vec3.neg_neg]

/-- C7 counterexample: for a ray direction and outward normal whose dot
product is exactly zero, OutwardHitRecord::new sets front_face even
though the incidence test dot < 0 of the claim is false. -/
theorem cex_C7_zero_dot_front_face :
    (OutwardHitRecord.new matsInert ⟨0, 0, 0⟩ ⟨⟨0, 0, 0⟩, ⟨1, 0, 0⟩, 0⟩
        ⟨0, 1, 0⟩ 1 0 (0, 0)).frontFace = true ∧
      ¬((⟨⟨0, 0, 0⟩, ⟨1, 0, 0⟩, 0⟩ : Ray ℚ).direction.dot ⟨0, 1, 0⟩ < 0) := by
  constructor
  · norm_num [OutwardHitRecord.new, Vec3.dot, FloatEps.eps]
  · norm_num [Vec3.dot]

/-- C7 amended: front_face is set exactly when the incidence dot product
is below EPSILON = 1e-10 (not below 0), and the against-ray normal is the
outward normal under that test and its negation otherwise. -/
theorem thm_C7_front_face_epsilon (mats : ℕ → Material ℚ) (point : Vec3 ℚ)
    (ray : Ray ℚ) (n : Vec3 ℚ) (t : ℚ) (matId : ℕ) (uv : ℚ × ℚ) :
    ((OutwardHitRecord.new mats point ray n t matId uv).frontFace = true ↔
      ray.direction.dot n < FloatEps.eps) ∧
    (OutwardHitRecord.new mats point ray n t matId uv).normalAgainstRay =
      (if ray.direction.dot n < (FloatEps.eps : ℚ) then n else -n) := by
  constructor
  · simp [OutwardHitRecord.new]
  · by_cases h : ray.direction.dot n < (FloatEps.eps : ℚ) <;>
      simp [OutwardHitRecord.new, OutwardHitRecord.normalAgainstRay, h]

/-- C5 counterexample: two World elements hit at exactly equal t; the
element tested first wins (min_by returns the first of equal minima), so
the result is not the later element's record. -/
theorem cex_C5_tie_first_wins :
    worldHit [fun _ _ _ => some recTieA, fun _ _ _ => some recTieB]
        cexRay 0 10 = some recTieA ∧
      recTieA.t = recTieB.t ∧ recTieA ≠ recTieB := by
  refine ⟨?_, rfl, ?_⟩
  · norm_num [worldHit, iterMinByT, recTieA, recTieB, List.filterMap_cons,
      List.filterMap_nil, List.foldl_cons, List.foldl_nil]
  · norm_num [recTieA, recTieB]

/-- C2: the rectangle bounding box is built from the transposed corners
(x0, x1, k - eps) and (y0, y1, k + eps).  For the rectangle with bounds
(0,0)..(10,1) at offset 5, which XYRectangle::new accepts, the AABB::new
assertion compares 10 <= 1 and fails: a panic, contradicting that the
construction never violates the min-le-max invariant.  For the rectangle
(0,0)..(2,3) at offset 5 no panic occurs, but the constructed box has
maximum x coordinate 0 and so does not span [x0, x1] = [0, 2]. -/
theorem thm_C2_rect_bounding_box_bug :
    XYRectangle.new (0, 0) (10, 1) 5 0 = some ⟨0, 10, 0, 1, 5, 0⟩ ∧
    (⟨0, 10, 0, 1, 5, 0⟩ : XYRectangle).boundingBox = none ∧
    (⟨0, 2, 0, 3, 5, 0⟩ : XYRectangle).boundingBox =
      some ⟨⟨.fin 0, .fin 2, .fin (5 - f64MachineEps)⟩,
        ⟨.fin 0, .fin 3, .fin (5 + f64MachineEps)⟩⟩ ∧
    ¬((Fl.fin 2).le (Fl.fin 0) = true) := by
  refine ⟨?_, ?_, ?_, ?_⟩
  · norm_num [XYRectangle.new]
  · norm_num [XYRectangle.boundingBox, AABB.new, Fl.le]
  · norm_num [XYRectangle.boundingBox, AABB.new, Fl.le, f64MachineEps]
  · norm_num [Fl.le]

/-- C6 counterexample: merging the EMPTY sentinel with itself is not an
identity operation; the min <= max assertion in AABB::new fails (a
panic), modelled by none. -/
theorem cex_C6_merge_empty_empty :
    AABB.merge AABB.EMPTY AABB.EMPTY = none ∧
      AABB.merge AABB.EMPTY AABB.EMPTY ≠ some AABB.EMPTY := by
  constructor <;>
    simp [AABB.merge, AABB.new, AABB.EMPTY, Vec3.minF, Vec3.maxF, Fl.min,
      Fl.max, Fl.le]

set_option maxHeartbeats 2000000 in
/-- C1 counterexample: a hit whose material scatters with near-zero
attenuation and whose emitted colour is (1,1,1); ray_color's short
circuit returns BLACK, not the emitted colour. -/
theorem cex_C1_short_circuit_black :
    rayColor matsC1 ⟨1 / 2, 7 / 10, 1⟩ cexScene cexRay 5 0 100 =
        Color.black ∧
      cexOutRec.emitted ≠ Color.black := by
  constructor
  · rw [rayColor]
    norm_num [cexScene, cexOutRec, matsC1, matZeroAttenuation,
      OutwardHitRecord.intoAgainstRay, OutwardHitRecord.normalAgainstRay,
      Vec3.isNearZero, FloatEps.eps]
  · norm_num [cexOutRec, Color.black]

set_option maxHeartbeats 2000000 in
/-- C1 amended: with positive depth, a hit, and a scattering material,
ray_color returns emitted + attenuation * ray_color(scattered, depth-1)
unless the attenuation is numerically near zero, in which case it
short-circuits to BLACK (dropping the emitted term). -/
theorem thm_C1_ray_color_scatter (mats : ℕ → Material ℚ) (bg : Vec3 ℚ)
    (objHit : Ray ℚ → ℚ → ℚ → Option (OutwardHitRecord ℚ)) (ray : Ray ℚ)
    (depth : ℤ) (tMin tMax : ℚ) (h : OutwardHitRecord ℚ)
    (ray2 : Ray ℚ) (att : Vec3 ℚ) (hd : 0 < depth)
    (hh : objHit ray tMin tMax = some h)
    (hs : (mats h.intoAgainstRay.matId).scatter ray h.intoAgainstRay =
      some (ray2, att)) :
    rayColor mats bg objHit ray depth tMin tMax =
      (if att.isNearZero then Color.black
       else h.emitted +
         att * rayColor mats bg objHit ray2 (depth - 1) tMin tMax) := by
  have hnle : ¬depth ≤ 0 := by omega
  rw [rayColor]
  simp only [hnle, if_false, hh, hs]

/-- C1 witness: the amended equation instantiated at the concrete
zero-attenuation scene. -/
theorem wit_C1_ray_color_scatter :
    rayColor matsC1 ⟨1 / 2, 7 / 10, 1⟩ cexScene cexRay 5 0 100 =
      (if (⟨0, 0, 0⟩ : Vec3 ℚ).isNearZero then Color.black
       else cexOutRec.emitted +
         ⟨0, 0, 0⟩ *
           rayColor matsC1 ⟨1 / 2, 7 / 10, 1⟩ cexScene
             ⟨⟨0, 0, 0⟩, ⟨1, 0, 0⟩, 0⟩ 4 0 100) :=
  thm_C1_ray_color_scatter matsC1 ⟨1 / 2, 7 / 10, 1⟩ cexScene cexRay 5 0 100
    cexOutRec ⟨⟨0, 0, 0⟩, ⟨1, 0, 0⟩, 0⟩ ⟨0, 0, 0⟩ (by norm_num) rfl rfl

set_option maxHeartbeats 2000000 in
/-- C3: Block::new places the sixth face (a YZ rectangle, whose fixed
axis is x) at plane offset max.y instead of max.x; for the block
(0,0,0)..(1,2,3) the nearest hit of the ray from (5, 1/2, 1/2) with
direction (-1, 1/10, 1/10) is on that misplaced face, at t = 3 and point
(2, 4/5, 4/5) - a point outside the box (x = 2 exceeds max.x = 1), so
the six rectangles do not form the boundary of the box. -/
theorem thm_C3_block_sixth_face_misplaced :
    (Block.new ⟨0, 0, 0⟩ ⟨1, 2, 3⟩ 0).bind
        (fun b => b.hit matsInert cexBlockRay 0 100) = some cexBlockRec ∧
      cexBlockRec.t = 3 ∧ cexBlockRec.point = ⟨2, 4 / 5, 4 / 5⟩ ∧
      ¬(cexBlockRec.point.x ≤ (1 : ℚ)) := by
  refine ⟨?_, rfl, rfl, by norm_num [cexBlockRec]⟩
  norm_num [Block.new, Block.hit, XYRectangle.new, XZRectangle.new,
    YZRectangle.new, hitListNearest, AxisAlignedRectangle.hit,
    XYRectangle.hit, XZRectangle.hit, YZRectangle.hit, Ray.at, Vec3.smul,
    OutwardHitRecord.new, OutwardHitRecord.intoAgainstRay,
    OutwardHitRecord.normalAgainstRay, Vec3.dot, FloatEps.eps, matsInert,
    matInert, Color.black, cexBlockRay, cexBlockRec, List.foldl_cons,
    List.foldl_nil, Option.bind, Vec3.add_def, Vec3.sub_def, Vec3.mul_def,
    Vec3.neg_def]

lemma foldlMinFirst [LinearOrderedField α] (rest : List (OutwardHitRecord α))
    (h : OutwardHitRecord α) :
    rest.foldl (fun acc r => if r.t < acc.t then r else acc) h =
      (match specMinFirst rest with
       | none => h
       | some m => if m.t < h.t then m else h) := by
  induction rest generalizing h with
  | nil => simp [specMinFirst]
  | cons r rs ih =>
    rw [List.foldl_cons, ih]
    cases hm : specMinFirst rs with
    | none => simp [specMinFirst, hm]
    | some m =>
      simp only [specMinFirst, hm]
      by_cases hrh : r.t < h.t <;> by_cases hmr : m.t < r.t <;>
        simp only [hrh, hmr, if_true, if_false, if_pos, if_neg,
          not_false_iff] <;> split_ifs <;> first
        | rfl
        | (exfalso; simp_all; linarith)

/-- C5 amended: World::hit returns the minimum-t hit among all elements'
hits, and on exactly equal t the element tested EARLIER (first in the
collection) wins: the result coincides with specMinFirst, the
specification-side nearest-hit-earliest-tie function. -/
theorem thm_C5_world_hit_min_first
    (objs : List (Ray ℚ → ℚ → ℚ → Option (OutwardHitRecord ℚ)))
    (ray : Ray ℚ) (tMin tMax : ℚ) :
    worldHit objs ray tMin tMax =
      specMinFirst (objs.filterMap fun o => o ray tMin tMax) := by
  rw [worldHit]
  cases hl : objs.filterMap fun o => o ray tMin tMax with
  | nil => rfl
  | cons hd tl =>
    simp only [iterMinByT]
    rw [foldlMinFirst]
    cases hm : specMinFirst tl with
    | none => simp [specMinFirst, hm]
    | some m => simp [specMinFirst, hm]

lemma Vec3.eq_of_comps {v w : Vec3 α} (hx : v.x = w.x) (hy : v.y = w.y)
    (hz : v.z = w.z) : v = w := by
  cases v; cases w; simp_all

lemma Fl.min_comm (a b : Fl) : a.min b = b.min a := by
  cases a <;> cases b <;> simp [Fl.min] <;> apply inf_comm

lemma Fl.max_comm (a b : Fl) : a.max b = b.max a := by
  cases a <;> cases b <;> simp [Fl.max] <;> apply sup_comm

lemma Fl.min_assoc (a b c : Fl) : (a.min b).min c = a.min (b.min c) := by
  cases a <;> cases b <;> cases c <;> simp [Fl.min] <;> apply inf_assoc

lemma Fl.max_assoc (a b c : Fl) : (a.max b).max c = a.max (b.max c) := by
  cases a <;> cases b <;> cases c <;> simp [Fl.max] <;> apply sup_assoc

lemma Fl.min_self (a : Fl) : a.min a = a := by
  cases a <;> simp [Fl.min]

lemma Fl.max_self (a : Fl) : a.max a = a := by
  cases a <;> simp [Fl.max]

lemma Fl.le_not_nan {a b : Fl} (h : a.le b = true) : a ≠ .nan ∧ b ≠ .nan := by
  cases a <;> cases b <;> simp_all [Fl.le]

lemma Fl.min_pinf {b : Fl} (h : b ≠ .nan) : Fl.min .pinf b = b := by
  cases b <;> simp_all [Fl.min]

lemma Fl.max_ninf {b : Fl} (h : b ≠ .nan) : Fl.max .ninf b = b := by
  cases b <;> simp_all [Fl.max]

lemma Fl.min_pinf_right {b : Fl} (h : b ≠ .nan) : Fl.min b .pinf = b := by
  cases b <;> simp_all [Fl.min]

lemma Fl.max_ninf_right {b : Fl} (h : b ≠ .nan) : Fl.max b .ninf = b := by
  cases b <;> simp_all [Fl.max]

lemma Fl.le_min_max {a b c d : Fl} (hab : a.le b = true)
    (hcd : c.le d = true) : (a.min c).le (b.max d) = true := by
  cases a <;> cases b <;> cases c <;> cases d <;>
    simp_all [Fl.le, Fl.min, Fl.max] <;>
    exact le_trans (min_le_left _ _) (le_trans (by assumption) (le_max_left _ _))

lemma Vec3.minF_comm (a b : Vec3 Fl) : a.minF b = b.minF a := by
  simp [Vec3.minF, Fl.min_comm]

lemma Vec3.maxF_comm (a b : Vec3 Fl) : a.maxF b = b.maxF a := by
  simp [Vec3.maxF, Fl.max_comm]

lemma Vec3.minF_assoc (a b c : Vec3 Fl) :
    (a.minF b).minF c = a.minF (b.minF c) := by
  simp [Vec3.minF, Fl.min_assoc]

lemma Vec3.maxF_assoc (a b c : Vec3 Fl) :
    (a.maxF b).maxF c = a.maxF (b.maxF c) := by
  simp [Vec3.maxF, Fl.max_assoc]

lemma Vec3.minF_self (v : Vec3 Fl) : v.minF v = v := by
  cases v; simp [Vec3.minF, Fl.min_self]

lemma Vec3.maxF_self (v : Vec3 Fl) : v.maxF v = v := by
  cases v; simp [Vec3.maxF, Fl.max_self]

lemma AABB.isValid_iff {x : AABB} :
    x.isValid = true ↔
      x.min.x.le x.max.x = true ∧ x.min.y.le x.max.y = true ∧
        x.min.z.le x.max.z = true := by
  simp [AABB.isValid, Bool.and_eq_true, and_assoc]

lemma AABB.new_of_valid {mn mx : Vec3 Fl} (h1 : mn.x.le mx.x = true)
    (h2 : mn.y.le mx.y = true) (h3 : mn.z.le mx.z = true) :
    AABB.new mn mx = some ⟨mn, mx⟩ := by
  simp [AABB.new, h1, h2, h3]

lemma AABB.merge_ok {a b : AABB} (ha : a.isValid = true)
    (hb : b.isValid = true) :
    a.merge b = some ⟨a.min.minF b.min, a.max.maxF b.max⟩ ∧
      (⟨a.min.minF b.min, a.max.maxF b.max⟩ : AABB).isValid = true := by
  obtain ⟨ha1, ha2, ha3⟩ := AABB.isValid_iff.mp ha
  obtain ⟨hb1, hb2, hb3⟩ := AABB.isValid_iff.mp hb
  have h1 := Fl.le_min_max ha1 hb1
  have h2 := Fl.le_min_max ha2 hb2
  have h3 := Fl.le_min_max ha3 hb3
  refine ⟨?_, ?_⟩
  · exact AABB.new_of_valid h1 h2 h3
  · exact AABB.isValid_iff.mpr ⟨h1, h2, h3⟩

/-- C6 amended: for boxes satisfying the min <= max invariant, merge
always succeeds and is associative, commutative and idempotent, and the
EMPTY sentinel is a two-sided identity; merging EMPTY with itself,
however, panics on the AABB::new assertion (the counterexample above). -/
theorem thm_C6_merge_algebra (a b c : AABB) (ha : a.isValid = true)
    (hb : b.isValid = true) (hc : c.isValid = true) :
    ((a.merge b).bind fun ab => ab.merge c) =
        ((b.merge c).bind fun bc => a.merge bc) ∧
      a.merge b = b.merge a ∧
      a.merge a = some a ∧
      AABB.EMPTY.merge a = some a ∧
      a.merge AABB.EMPTY = some a := by
  obtain ⟨ha1, ha2, ha3⟩ := AABB.isValid_iff.mp ha
  have hnanMin : a.min.x ≠ .nan ∧ a.min.y ≠ .nan ∧ a.min.z ≠ .nan :=
    ⟨(Fl.le_not_nan ha1).1, (Fl.le_not_nan ha2).1, (Fl.le_not_nan ha3).1⟩
  have hnanMax : a.max.x ≠ .nan ∧ a.max.y ≠ .nan ∧ a.max.z ≠ .nan :=
    ⟨(Fl.le_not_nan ha1).2, (Fl.le_not_nan ha2).2, (Fl.le_not_nan ha3).2⟩
  refine ⟨?_, ?_, ?_, ?_, ?_⟩
  · obtain ⟨hab, habv⟩ := AABB.merge_ok ha hb
    obtain ⟨hbc, hbcv⟩ := AABB.merge_ok hb hc
    rw [hab, hbc]
    simp only [Option.bind]
    rw [(AABB.merge_ok habv hc).1, (AABB.merge_ok ha hbcv).1]
    simp [Vec3.minF_assoc, Vec3.maxF_assoc]
  · rw [(AABB.merge_ok ha hb).1, (AABB.merge_ok hb ha).1,
      Vec3.minF_comm, Vec3.maxF_comm]
  · rw [(AABB.merge_ok ha ha).1, Vec3.minF_self, Vec3.maxF_self]
  · show AABB.new (AABB.EMPTY.min.minF a.min) (AABB.EMPTY.max.maxF a.max) =
      some a
    have hm : AABB.EMPTY.min.minF a.min = a.min :=
      Vec3.eq_of_comps (Fl.min_pinf hnanMin.1) (Fl.min_pinf hnanMin.2.1)
        (Fl.min_pinf hnanMin.2.2)
    have hx : AABB.EMPTY.max.maxF a.max = a.max :=
      Vec3.eq_of_comps (Fl.max_ninf hnanMax.1) (Fl.max_ninf hnanMax.2.1)
        (Fl.max_ninf hnanMax.2.2)
    rw [hm, hx, AABB.new_of_valid ha1 ha2 ha3]
  · show AABB.new (a.min.minF AABB.EMPTY.min) (a.max.maxF AABB.EMPTY.max) =
      some a
    have hm : a.min.minF AABB.EMPTY.min = a.min :=
      Vec3.eq_of_comps (Fl.min_pinf_right hnanMin.1)
        (Fl.min_pinf_right hnanMin.2.1) (Fl.min_pinf_right hnanMin.2.2)
    have hx : a.max.maxF AABB.EMPTY.max = a.max :=
      Vec3.eq_of_comps (Fl.max_ninf_right hnanMax.1)
        (Fl.max_ninf_right hnanMax.2.1) (Fl.max_ninf_right hnanMax.2.2)
    rw [hm, hx, AABB.new_of_valid ha1 ha2 ha3]

/-- C6 witness: the amended algebra instantiated at concrete valid
boxes. -/
theorem wit_C6_merge_algebra :
    unitBoxF.merge boxF2 = boxF2.merge unitBoxF ∧
      AABB.EMPTY.merge boxF3 = some boxF3 := by
  have h1 := thm_C6_merge_algebra unitBoxF boxF2 boxF3
    (by norm_num [AABB.isValid, unitBoxF, Fl.le])
    (by norm_num [AABB.isValid, boxF2, Fl.le])
    (by norm_num [AABB.isValid, boxF3, Fl.le])
  have h2 := thm_C6_merge_algebra boxF3 unitBoxF unitBoxF
    (by norm_num [AABB.isValid, boxF3, Fl.le])
    (by norm_num [AABB.isValid, unitBoxF, Fl.le])
    (by norm_num [AABB.isValid, unitBoxF, Fl.le])
  exact ⟨h1.2.1, h2.2.2.2.1⟩

lemma sortKeyF_not_nan {o : BObj} {b : AABB} (hbox : o.box = some b)
    (hv : b.isValid = true) (ax : Fin 3) : sortKeyF ax o ≠ Fl.nan := by
  obtain ⟨h1, h2, h3⟩ := AABB.isValid_iff.mp hv
  simp only [sortKeyF, hbox]
  split_ifs
  · exact (Fl.le_not_nan h1).1
  · exact (Fl.le_not_nan h2).1
  · exact (Fl.le_not_nan h3).1

set_option maxHeartbeats 1000000 in
lemma bvhBuildF_empty (axes : ℕ → Fin 3) (k : ℕ) :
    bvhBuildF [] axes k = .error .emptyObjects := by
  rw [bvhBuildF]

set_option maxHeartbeats 1000000 in
lemma bvhBuildF_noBox (objs : List BObj) (axes : ℕ → Fin 3) (k : ℕ)
    (hex : ∃ o ∈ objs, o.box = none) :
    bvhBuildF objs axes k = .error .noBox := by
  match objs with
  | [] =>
    obtain ⟨o, ho, _⟩ := hex
    exact absurd ho (List.not_mem_nil o)
  | [o] =>
    obtain ⟨o2, ho2, hbox⟩ := hex
    rw [List.mem_singleton] at ho2
    subst ho2
    rw [bvhBuildF, hbox]
  | [o1, o2] =>
    have hany : ([o1, o2].any fun o => o.box.isNone) = true := by
      obtain ⟨o, ho, hbox⟩ := hex
      exact List.any_eq_true.mpr ⟨o, ho, by simp [hbox]⟩
    rw [bvhBuildF]
    simp only [hany, if_true]
  | o1 :: o2 :: o3 :: rest =>
    have hany : ((o1 :: o2 :: o3 :: rest).any fun o => o.box.isNone) = true := by
      obtain ⟨o, ho, hbox⟩ := hex
      exact List.any_eq_true.mpr ⟨o, ho, by simp [hbox]⟩
    rw [bvhBuildF]
    simp only [hany, if_true]

set_option maxHeartbeats 1000000 in
lemma bvhBuildF_nan (objs : List BObj) (axes : ℕ → Fin 3) (k : ℕ)
    (hlen : 2 ≤ objs.length) (hall : ∀ o ∈ objs, o.box ≠ none)
    (hex : ∃ o ∈ objs, sortKeyF (axes k) o = Fl.nan) :
    bvhBuildF objs axes k = .error .nanCompare := by
  match objs with
  | [] => simp at hlen
  | [o] => simp at hlen
  | [o1, o2] =>
    have hany1 : ([o1, o2].any fun o => o.box.isNone) = false := by
      simp only [List.any_eq_false]
      intro o ho
      have := hall o ho
      simp [Option.isNone_iff_eq_none]
      exact this
    have hany2 : ([o1, o2].any fun o => sortKeyF (axes k) o == Fl.nan) = true := by
      obtain ⟨o, ho, hnan⟩ := hex
      exact List.any_eq_true.mpr ⟨o, ho, by simp [hnan]⟩
    rw [bvhBuildF]
    simp only [hany1, hany2, if_false, if_true, Bool.false_eq_true]
  | o1 :: o2 :: o3 :: rest =>
    have hany1 : ((o1 :: o2 :: o3 :: rest).any fun o => o.box.isNone) = false := by
      simp only [List.any_eq_false]
      intro o ho
      have := hall o ho
      simp [Option.isNone_iff_eq_none]
      exact this
    have hany2 : ((o1 :: o2 :: o3 :: rest).any
        fun o => sortKeyF (axes k) o == Fl.nan) = true := by
      obtain ⟨o, ho, hnan⟩ := hex
      exact List.any_eq_true.mpr ⟨o, ho, by simp [hnan]⟩
    rw [bvhBuildF]
    simp only [hany1, hany2, if_false, if_true, Bool.false_eq_true]

set_option maxHeartbeats 2000000 in
lemma bvhBuildF_ok (n : ℕ) :
    ∀ (objs : List BObj), objs.length ≤ n → objs ≠ [] →
      (∀ o ∈ objs, ∃ b, o.box = some b ∧ b.isValid = true) →
      ∀ (axes : ℕ → Fin 3) (k : ℕ),
        ∃ t k2, bvhBuildF objs axes k = .ok (t, k2) ∧
          ∃ bb, BVHF.boxOf t = some bb ∧ bb.isValid = true := by
  induction n with
  | zero =>
    intro objs hlen hne _ _ _
    cases objs with
    | nil => exact absurd rfl hne
    | cons a l => simp at hlen
  | succ n ih =>
    intro objs hlen hne hval axes k
    match objs with
    | [] => exact absurd rfl hne
    | [o] =>
      obtain ⟨b, hbox, hbv⟩ := hval o (by simp)
      refine ⟨.node b (some (.objLeaf o)) none, k, ?_, b, rfl, hbv⟩
      rw [bvhBuildF, hbox]
    | [o1, o2] =>
      obtain ⟨b1, hb1, hv1⟩ := hval o1 (by simp)
      obtain ⟨b2, hb2, hv2⟩ := hval o2 (by simp)
      have hany1 : ([o1, o2].any fun o => o.box.isNone) = false := by
        simp only [List.any_eq_false]
        intro o ho
        rcases List.mem_pair.mp ho with h | h <;> subst h <;> simp [hb1, hb2]
      have hany2 : ([o1, o2].any fun o => sortKeyF (axes k) o == Fl.nan)
          = false := by
        simp only [List.any_eq_false]
        intro o ho
        simp only [beq_iff_eq]
        rcases List.mem_pair.mp ho with h | h <;> subst h
        · exact sortKeyF_not_nan hb1 hv1 (axes k)
        · exact sortKeyF_not_nan hb2 hv2 (axes k)
      rw [bvhBuildF]
      simp only [hany1, hany2, Bool.false_eq_true, if_false]
      by_cases hr : (sortKeyF (axes k) o1).le (sortKeyF (axes k) o2) = true
      · simp [List.insertionSort, List.orderedInsert, hr,
          hb1, hb2, (AABB.merge_ok hv1 hv2).1]
        first
        | exact ⟨_, _, rfl, _, rfl, (AABB.merge_ok hv1 hv2).2⟩
        | exact ⟨_, rfl, (AABB.merge_ok hv1 hv2).2⟩
        | exact (AABB.merge_ok hv1 hv2).2
      · simp [List.insertionSort, List.orderedInsert, hr,
          hb2, hb1, (AABB.merge_ok hv2 hv1).1]
        first
        | exact ⟨_, _, rfl, _, rfl, (AABB.merge_ok hv2 hv1).2⟩
        | exact ⟨_, rfl, (AABB.merge_ok hv2 hv1).2⟩
        | exact (AABB.merge_ok hv2 hv1).2
    | o1 :: o2 :: o3 :: rest =>
      have hany1 : ((o1 :: o2 :: o3 :: rest).any fun o => o.box.isNone)
          = false := by
        simp only [List.any_eq_false]
        intro o ho
        obtain ⟨b, hbox, _⟩ := hval o ho
        simp [hbox]
      have hany2 : ((o1 :: o2 :: o3 :: rest).any
          fun o => sortKeyF (axes k) o == Fl.nan) = false := by
        simp only [List.any_eq_false]
        intro o ho
        obtain ⟨b, hbox, hbv⟩ := hval o ho
        simp only [beq_iff_eq]
        exact sortKeyF_not_nan hbox hbv (axes k)
      rw [bvhBuildF]
      simp only [hany1, hany2, Bool.false_eq_true, if_false]
      set sorted := (o1 :: o2 :: o3 :: rest).insertionSort
        (fun a b => (sortKeyF (axes k) a).le (sortKeyF (axes k) b) = true)
        with hsorted
      set m := (o1 :: o2 :: o3 :: rest).length / 2 with hm
      have hperm : sorted.Perm (o1 :: o2 :: o3 :: rest) := by
        rw [hsorted]; exact List.perm_insertionSort _ _
      have hslen : sorted.length = (o1 :: o2 :: o3 :: rest).length :=
        hperm.length_eq
      have hvalS : ∀ o ∈ sorted, ∃ b, o.box = some b ∧ b.isValid = true :=
        fun o ho => hval o (hperm.subset ho)
      have hvalL : ∀ o ∈ sorted.take m, ∃ b, o.box = some b ∧
          b.isValid = true :=
        fun o ho => hvalS o (List.take_subset m sorted ho)
      have hvalR : ∀ o ∈ sorted.drop m, ∃ b, o.box = some b ∧
          b.isValid = true :=
        fun o ho => hvalS o (List.drop_subset m sorted ho)
      have hlenL : (sorted.take m).length ≤ n := by
        simp only [List.length_take, hslen, List.length_cons] at *
        omega
      have hneL : sorted.take m ≠ [] := by
        have : 0 < (sorted.take m).length := by
          simp only [List.length_take, hslen, List.length_cons] at *
          omega
        exact List.ne_nil_of_length_pos this
      have hlenR : (sorted.drop m).length ≤ n := by
        simp only [List.length_drop, hslen, List.length_cons] at *
        omega
      have hneR : sorted.drop m ≠ [] := by
        have : 0 < (sorted.drop m).length := by
          simp only [List.length_drop, hslen, List.length_cons] at *
          omega
        exact List.ne_nil_of_length_pos this
      obtain ⟨lt, k1, hlt, bl, hbl, hblv⟩ :=
        ih (sorted.take m) hlenL hneL hvalL axes (k + 1)
      obtain ⟨rt, k2, hrt, br, hbr, hbrv⟩ :=
        ih (sorted.drop m) hlenR hneR hvalR axes k1
      simp only [hlt, hrt, hbl, hbr, (AABB.merge_ok hblv hbrv).1]
      exact ⟨_, _, rfl, _, rfl, (AABB.merge_ok hblv hbrv).2⟩

/-- C9: BVH construction fails fast - the empty list, a missing bounding
box, and a NaN key comparison each produce the corresponding fatal error
- and for every non-empty list of objects whose bounding boxes are
present, NaN-free and satisfy the min <= max AABB invariant, the
construction succeeds (for every random axis stream). -/
theorem thm_C9_bvh_build_failfast :
    (∀ axes k, bvhBuildF [] axes k = .error .emptyObjects) ∧
    (∀ objs axes k, (∃ o ∈ objs, o.box = none) →
      bvhBuildF objs axes k = .error .noBox) ∧
    (∀ objs axes k, 2 ≤ objs.length → (∀ o ∈ objs, o.box ≠ none) →
      (∃ o ∈ objs, sortKeyF (axes k) o = Fl.nan) →
      bvhBuildF objs axes k = .error .nanCompare) ∧
    (∀ objs axes k, objs ≠ [] →
      (∀ o ∈ objs, ∃ b, o.box = some b ∧ b.isValid = true) →
      ∃ t k2, bvhBuildF objs axes k = .ok (t, k2)) := by
  refine ⟨bvhBuildF_empty, bvhBuildF_noBox, bvhBuildF_nan, ?_⟩
  intro objs axes k hne hval
  obtain ⟨t, k2, hok, _⟩ :=
    bvhBuildF_ok objs.length objs le_rfl hne hval axes k
  exact ⟨t, k2, hok⟩

/-- C9 witness: the fail-fast clauses instantiated at concrete inputs. -/
theorem wit_C9_bvh_build_failfast :
    bvhBuildF [] axesX 0 = .error .emptyObjects ∧
    bvhBuildF [bobjUnit, bobjNoBox] axesX 0 = .error .noBox ∧
    bvhBuildF [bobjUnit, bobjNanX] axesX 0 = .error .nanCompare ∧
    ∃ t k2, bvhBuildF [bobjUnit, bobjSecond] axesX 0 = .ok (t, k2) := by
  have hvU : unitBoxF.isValid = true := by
    norm_num [AABB.isValid, unitBoxF, Fl.le]
  have hv2 : boxF2.isValid = true := by
    norm_num [AABB.isValid, boxF2, Fl.le]
  refine ⟨thm_C9_bvh_build_failfast.1 axesX 0,
    thm_C9_bvh_build_failfast.2.1 _ axesX 0 ⟨bobjNoBox, by simp, rfl⟩,
    thm_C9_bvh_build_failfast.2.2.1 _ axesX 0 (by norm_num) ?_
      ⟨bobjNanX, by simp, by simp [sortKeyF, bobjNanX, axesX]⟩,
    thm_C9_bvh_build_failfast.2.2.2 _ axesX 0 (by simp) ?_⟩
  · intro o ho
    rcases List.mem_pair.mp ho with h | h <;> subst h <;>
      simp [bobjUnit, bobjNanX]
  · intro o ho
    rcases List.mem_pair.mp ho with h | h <;> subst h
    · exact ⟨unitBoxF, rfl, hvU⟩
    · exact ⟨boxF2, rfl, hv2⟩

set_option maxHeartbeats 1000000 in
lemma treeHit_sound (mats : ℕ → Material ℝ) (t : BTreeR) :
    ∀ (ray : Ray ℝ) (tMin tMax : ℝ) (rec : OutwardHitRecord ℝ),
      treeHit mats t ray tMin tMax = some rec →
      ∃ s ∈ BTreeR.leaves t, ∃ tMax2, tMax2 ≤ tMax ∧
        sphereHit mats s ray tMin tMax2 = some rec := by
  induction t with
  | objLeaf s =>
    intro ray tMin tMax rec h
    rw [treeHit] at h
    exact ⟨s, by simp [BTreeR.leaves], tMax, le_rfl, h⟩
  | node1 bb l ihl =>
    intro ray tMin tMax rec h
    rw [treeHit] at h
    by_cases hbox : bb.isHit ray tMin tMax = true
    · rw [if_pos hbox] at h
      obtain ⟨s, hs, t3, ht3, hsp⟩ := ihl ray tMin tMax rec h
      exact ⟨s, by simpa [BTreeR.leaves] using hs, t3, ht3, hsp⟩
    · rw [if_neg hbox] at h
      simp at h
  | node2 bb l r ihl ihr =>
    intro ray tMin tMax rec h
    rw [treeHit] at h
    by_cases hbox : bb.isHit ray tMin tMax = true
    · rw [if_pos hbox] at h
      cases hlt : treeHit mats l ray tMin tMax with
      | none =>
        simp only [hlt] at h
        cases hrt : treeHit mats r ray tMin tMax with
        | none => rw [hrt] at h; simp at h
        | some hR =>
          rw [hrt] at h
          simp only [Option.some.injEq] at h
          rw [h] at hrt
          obtain ⟨s, hs, t3, ht3, hsp⟩ := ihr ray tMin tMax rec hrt
          exact ⟨s, by simp [BTreeR.leaves, hs], t3, ht3, hsp⟩
      | some lh =>
        simp only [hlt] at h
        cases hrt : treeHit mats r ray tMin (Min.min tMax lh.t) with
        | none =>
          rw [hrt] at h
          simp only [Option.some.injEq] at h
          rw [h] at hlt
          obtain ⟨s, hs, t3, ht3, hsp⟩ := ihl ray tMin tMax rec hlt
          exact ⟨s, by simp [BTreeR.leaves, hs], t3, ht3, hsp⟩
        | some hR =>
          rw [hrt] at h
          simp only [Option.some.injEq] at h
          rw [h] at hrt
          obtain ⟨s, hs, t3, ht3, hsp⟩ :=
            ihr ray tMin (Min.min tMax lh.t) rec hrt
          refine ⟨s, by simp [BTreeR.leaves, hs], t3, ?_, hsp⟩
          exact le_trans ht3 (min_le_left _ _)
    · rw [if_neg hbox] at h
      simp at h

set_option maxHeartbeats 2000000 in
lemma bvhBuildR_leaves (n : ℕ) :
    ∀ (objs : List Sphere) (axes : ℕ → Fin 3) (k : ℕ) (t : BTreeR) (k2 : ℕ),
      objs.length ≤ n → bvhBuildR objs axes k = some (t, k2) →
      ∀ s ∈ BTreeR.leaves t, s ∈ objs := by
  induction n with
  | zero =>
    intro objs axes k t k2 hlen hb
    cases objs with
    | nil => rw [bvhBuildR] at hb; simp at hb
    | cons a l => simp at hlen
  | succ n ih =>
    intro objs axes k t k2 hlen hb s hs
    match objs with
    | [] => rw [bvhBuildR] at hb; simp at hb
    | [o] =>
      rw [bvhBuildR] at hb
      cases hbox : o.boundingBox with
      | none => rw [hbox] at hb; simp at hb
      | some b =>
        rw [hbox] at hb
        simp only [Option.some.injEq, Prod.mk.injEq] at hb
        obtain ⟨ht, _⟩ := hb
        rw [← ht] at hs
        simp only [BTreeR.leaves, List.mem_singleton] at hs
        simp [hs]
    | [a, b2] =>
      rw [bvhBuildR] at hb
      cases ha : a.boundingBox with
      | none => rw [ha] at hb; simp at hb
      | some ba =>
        cases hbb : b2.boundingBox with
        | none => rw [ha, hbb] at hb; simp at hb
        | some bb2 =>
          rw [ha, hbb] at hb
          by_cases hkey : keyR (axes k) b2 < keyR (axes k) a
          · rw [if_pos hkey] at hb
            simp only [ha, hbb] at hb
            cases hm : bb2.merge ba with
            | none => rw [hm] at hb; simp at hb
            | some bm =>
              rw [hm] at hb
              simp only [Option.some.injEq, Prod.mk.injEq] at hb
              obtain ⟨ht, _⟩ := hb
              rw [← ht] at hs
              simp only [BTreeR.leaves, List.mem_append,
                List.mem_singleton] at hs
              rcases hs with h | h <;> simp [h]
          · rw [if_neg hkey] at hb
            simp only [ha, hbb] at hb
            cases hm : ba.merge bb2 with
            | none => rw [hm] at hb; simp at hb
            | some bm =>
              rw [hm] at hb
              simp only [Option.some.injEq, Prod.mk.injEq] at hb
              obtain ⟨ht, _⟩ := hb
              rw [← ht] at hs
              simp only [BTreeR.leaves, List.mem_append,
                List.mem_singleton] at hs
              rcases hs with h | h <;> simp [h]
    | o1 :: o2 :: o3 :: rest =>
      rw [bvhBuildR] at hb
      by_cases hany : ((o1 :: o2 :: o3 :: rest).any
          fun o => o.boundingBox.isNone) = true
      · rw [if_pos hany] at hb; simp at hb
      · rw [if_neg hany] at hb
        set sorted := (o1 :: o2 :: o3 :: rest).insertionSort
          (fun s1 s2 => keyR (axes k) s1 ≤ keyR (axes k) s2) with hsorted
        set m := (o1 :: o2 :: o3 :: rest).length / 2 with hm
        have hperm : sorted.Perm (o1 :: o2 :: o3 :: rest) := by
          rw [hsorted]; exact List.perm_insertionSort _ _
        have hslen : sorted.length = (o1 :: o2 :: o3 :: rest).length :=
          hperm.length_eq
        cases hlb : bvhBuildR (sorted.take m) axes (k + 1) with
        | none => simp only [hlb] at hb; exact Option.noConfusion hb
        | some p =>
          obtain ⟨lt, k1⟩ := p
          simp only [hlb] at hb
          cases hrb : bvhBuildR (sorted.drop m) axes k1 with
          | none => simp only [hrb] at hb; exact Option.noConfusion hb
          | some q =>
            obtain ⟨rt, k2x⟩ := q
            simp only [hrb] at hb
            cases hbl : BTreeR.boxOf lt with
            | none => simp only [hbl] at hb; exact Option.noConfusion hb
            | some bl =>
              cases hbr : BTreeR.boxOf rt with
              | none => simp only [hbl, hbr] at hb; exact Option.noConfusion hb
              | some br =>
                simp only [hbl, hbr] at hb
                cases hmg : bl.merge br with
                | none => simp only [hmg] at hb; exact Option.noConfusion hb
                | some bm =>
                  simp only [hmg, Option.some.injEq, Prod.mk.injEq] at hb
                  obtain ⟨ht, _⟩ := hb
                  rw [← ht] at hs
                  simp only [BTreeR.leaves, List.mem_append] at hs
                  have hlenL : (sorted.take m).length ≤ n := by
                    simp only [List.length_take, hslen, List.length_cons] at *
                    omega
                  have hlenR : (sorted.drop m).length ≤ n := by
                    simp only [List.length_drop, hslen, List.length_cons] at *
                    omega
                  rcases hs with h | h
                  · have := ih (sorted.take m) axes (k + 1) lt k1 hlenL hlb s h
                    exact hperm.subset (List.take_subset m sorted this)
                  · have := ih (sorted.drop m) axes k1 rt k2x hlenR hrb s h
                    exact hperm.subset (List.drop_subset m sorted this)

/-- C4 amended: every hit a BVH built over a sphere list returns is a
genuine hit of one of the listed spheres - the very record that sphere's
hit test produces over a possibly narrowed range [t_min, t_max'] with
t_max' <= t_max.  (Completeness fails: the boundary counterexample below
shows the BVH may return no hit while the linear scan returns one.) -/
theorem thm_C4_bvh_soundness (mats : ℕ → Material ℝ) (objs : List Sphere)
    (axes : ℕ → Fin 3) (k : ℕ) (t : BTreeR) (k2 : ℕ) (ray : Ray ℝ)
    (tMin tMax : ℝ) (rec : OutwardHitRecord ℝ)
    (hbuild : bvhBuildR objs axes k = some (t, k2))
    (hhit : treeHit mats t ray tMin tMax = some rec) :
    ∃ s ∈ objs, ∃ tMax2, tMax2 ≤ tMax ∧
      sphereHit mats s ray tMin tMax2 = some rec := by
  obtain ⟨s, hs, t3, ht3, hsp⟩ := treeHit_sound mats t ray tMin tMax rec hhit
  exact ⟨s, bvhBuildR_leaves objs.length objs axes k t k2 le_rfl hbuild s hs,
    t3, ht3, hsp⟩

lemma sph0_box : sph0.boundingBox = some boxSph0 := by
  rw [Sphere.boundingBox]
  simp only [sph0, Vec3.constant, Vec3.sub_def, Vec3.add_def]
  norm_num [AABBR.new, boxSph0]

lemma bvhBuildR_sph0 : bvhBuildR [sph0] axesX 0 = some (treeSph0, 0) := by
  rw [bvhBuildR, sph0_box]
  rfl

lemma boxSph0_isHit_graze_false : boxSph0.isHit rayGraze 0 1 = false := by
  rw [AABBR.isHit]
  simp only [slabR, boxSph0, rayGraze]
  norm_num [max_def, min_def]

lemma boxSph0_isHit_graze10 : boxSph0.isHit rayGraze 0 10 = true := by
  rw [AABBR.isHit]
  simp only [slabR, boxSph0, rayGraze]
  norm_num [max_def, min_def]

lemma toSphereUV_unitz : toSphereUV ⟨0, 0, 1⟩ = (1 / 4, 1 / 2) := by
  rw [toSphereUV, toSphericalR]
  simp only [Vec3.dot]
  norm_num [Real.sqrt_one, atan2R, Real.arccos_zero]
  constructor
  · field_simp
    ring
  · field_simp
    ring

set_option maxHeartbeats 1000000 in
lemma sphereHit_graze (tMax : ℝ) (h1 : 1 ≤ tMax) :
    sphereHit matsInertR sph0 rayGraze 0 tMax = some recGraze := by
  rw [sphereHit]
  simp only [sph0, rayGraze, Vec3.sub_def, Vec3.dot]
  norm_num [Real.sqrt_one, h1, Ray.at, Vec3.smul, Vec3.add_def,
    Vec3.divScalar, toSphereUV_unitz, OutwardHitRecord.new, matsInertR,
    recGraze, FloatEps.eps, Vec3.dot]

lemma worldHitR_graze : worldHitR matsInertR [sph0] rayGraze 0 1 = some recGraze := by
  simp [worldHitR, iterMinByT, List.filterMap_cons, List.filterMap_nil,
    sphereHit_graze 1 le_rfl]

/-- C4 counterexample: for the unit sphere and a ray that hits it exactly
at t = t_max = 1 at the point where the ray enters the sphere's bounding
box, the BVH built over the one-sphere list returns no hit (the clipped
slab interval is degenerate and is_hit rejects on t_max <= t_min), while
the brute-force linear scan (World::hit) returns the hit. -/
theorem cex_C4_bvh_misses_boundary_hit :
    bvhBuildR [sph0] axesX 0 = some (treeSph0, 0) ∧
      treeHit matsInertR treeSph0 rayGraze 0 1 = none ∧
      worldHitR matsInertR [sph0] rayGraze 0 1 = some recGraze := by
  refine ⟨bvhBuildR_sph0, ?_, worldHitR_graze⟩
  simp only [treeSph0]
  rw [treeHit, boxSph0_isHit_graze_false]
  simp

/-- C4 witness: the soundness theorem applied to the one-sphere BVH and a
ray hitting strictly inside the t range. -/
theorem wit_C4_bvh_soundness :
    ∃ s ∈ [sph0], ∃ tMax2, tMax2 ≤ (10 : ℝ) ∧
      sphereHit matsInertR s rayGraze 0 tMax2 = some recGraze := by
  refine thm_C4_bvh_soundness matsInertR [sph0] axesX 0 treeSph0 0 rayGraze
    0 10 recGraze bvhBuildR_sph0 ?_
  simp only [treeSph0]
  rw [treeHit, boxSph0_isHit_graze10]
  rw [if_pos rfl, treeHit]
  exact sphereHit_graze 10 (by norm_num)

lemma roundCast_le {v : ℝ} (h0 : 0 ≤ v) (h9 : v ≤ 999 / 1000) :
    F8.toU64 (F8.round (F8.scale255 (F8.fin v))) ≤ 255 := by
  rw [F8.scale255, F8.round]
  have hv0 : (0 : ℝ) ≤ 255 * v := by positivity
  rw [if_pos hv0]
  have hz0 : 0 ≤ ⌊255 * v + 1 / 2⌋ := by
    apply Int.floor_nonneg.mpr; linarith
  have hz255 : ⌊255 * v + 1 / 2⌋ ≤ 255 := by
    have hb : (255 : ℝ) * v ≤ 255 * (999 / 1000) :=
      mul_le_mul_of_nonneg_left h9 (by norm_num)
    have : ⌊255 * v + 1 / 2⌋ < 256 := by
      apply Int.floor_lt.mpr
      push_cast
      linarith
    omega
  rw [F8.toU64]
  rw [if_neg (by push_cast; exact not_lt.mpr (by exact_mod_cast hz0)),
    if_neg (by
      push_cast
      refine not_lt.mpr ?_
      have : ((⌊255 * v + 1 / 2⌋ : ℤ) : ℝ) ≤ 255 := by exact_mod_cast hz255
      linarith), Int.floor_intCast]
  omega

lemma pipe999 : F8.toU64 (F8.round (F8.scale255 (F8.fin (999 / 1000)))) = 255 := by
  rw [F8.scale255, F8.round, if_pos (by norm_num)]
  have hfl : ⌊(255 : ℝ) * (999 / 1000) + 1 / 2⌋ = 255 := by
    rw [Int.floor_eq_iff] <;> norm_num
  rw [hfl, F8.toU64, if_neg (by norm_num), if_neg (by norm_num),
    Int.floor_intCast]
  rfl

lemma formatComponent_one : formatComponent (F8.fin 1) = 255 := by
  rw [formatComponent, F8.sqrt, if_neg (by norm_num), Real.sqrt_one,
    F8.clamp, if_neg (by norm_num), if_pos (by norm_num)]
  exact pipe999

lemma formatComponent_zero : formatComponent (F8.fin 0) = 0 := by
  rw [formatComponent, F8.sqrt, if_neg (by norm_num), Real.sqrt_zero,
    F8.clamp, if_neg (by norm_num), if_neg (by norm_num), F8.scale255,
    F8.round, if_pos (by norm_num)]
  have hfl : ⌊(255 : ℝ) * 0 + 1 / 2⌋ = 0 := by
    rw [Int.floor_eq_iff] <;> norm_num
  rw [hfl, F8.toU64, if_neg (by norm_num), if_neg (by norm_num),
    Int.floor_intCast]
  rfl

lemma formatComponent_le (c : F8) : formatComponent c ≤ 255 := by
  rw [formatComponent]
  cases c with
  | nan => simp [F8.sqrt, F8.clamp, F8.scale255, F8.round, F8.toU64]
  | ninf => simp [F8.sqrt, F8.clamp, F8.scale255, F8.round, F8.toU64]
  | pinf =>
    rw [F8.sqrt, F8.clamp]
    exact roundCast_le (by norm_num) le_rfl
  | fin x =>
    rw [F8.sqrt]
    by_cases hx : x < 0
    · rw [if_pos hx]
      simp [F8.clamp, F8.scale255, F8.round, F8.toU64]
    · rw [if_neg hx]
      have hs0 : 0 ≤ Real.sqrt x := Real.sqrt_nonneg x
      rw [F8.clamp, if_neg (not_lt.mpr hs0)]
      by_cases h9 : (999 / 1000 : ℝ) < Real.sqrt x
      · rw [if_pos h9]
        exact roundCast_le (by norm_num) le_rfl
      · rw [if_neg h9]
        exact roundCast_le hs0 (not_lt.mp h9)

/-- C8: the colour (1,0,0) formats to the string 255 0 0, the
out-of-range colour (1.5, -0.5, _) clamps to 255 and 0 on its first two
channels (the negative channel goes through NaN and the saturating cast),
and for every input colour each of the three emitted integers is at most
255 (they are naturals, hence never negative). -/
theorem thm_C8_format_color :
    formatColor ⟨.fin 1, .fin 0, .fin 0⟩ = "255 0 0" ∧
      formatComponent (F8.fin (3 / 2)) = 255 ∧
      formatComponent (F8.fin (-(1 / 2))) = 0 ∧
      ∀ c : Vec3 F8, (formatTriple c).1 ≤ 255 ∧ (formatTriple c).2.1 ≤ 255 ∧
        (formatTriple c).2.2 ≤ 255 := by
  refine ⟨?_, ?_, ?_, ?_⟩
  · rw [formatColor]
    simp only [formatTriple, formatComponent_one, formatComponent_zero]
    rfl
  · rw [formatComponent, F8.sqrt, if_neg (by norm_num), F8.clamp]
    have h9 : (999 / 1000 : ℝ) < Real.sqrt (3 / 2) := by
      rw [show (999 / 1000 : ℝ) = Real.sqrt ((999 / 1000) ^ 2) by
        rw [Real.sqrt_sq (by norm_num)]]
      apply Real.sqrt_lt_sqrt (by positivity)
      norm_num
    rw [if_neg (not_lt.mpr (Real.sqrt_nonneg _)), if_pos h9]
    exact pipe999
  · rw [formatComponent, F8.sqrt, if_pos (by norm_num)]
    simp [F8.clamp, F8.scale255, F8.round, F8.toU64]
  · intro c
    exact ⟨formatComponent_le c.x, formatComponent_le c.y,
      formatComponent_le c.z⟩
